import Mathlib

/-!
Verification development for the Multi-Adapter-Particles pipeline
(`Particles.cpp`, `Render.cpp`, `Compute.cpp`, `D3D12GpuTimer.h`).

The definitions below are a shallow embedding of the host-side control code:
fence values, ping-pong buffer indices and per-frame queue submissions are
modelled exactly as the C++ computes them; GPU work itself is represented by
the commands the host enqueues.
-/

namespace MAP


/-- `BLOCK_SIZE` from `defines.h`: compute shader block size. -/
def BLOCK_SIZE : ℕ := 64

/-- `m_NUM_BUFFERS` in `Compute.h` / `Render.h`: size of every ping-pong pair. -/
def NUM_BUFFERS : ℕ := 2

/-- `AVERAGE_OVER` in `Particles::Draw` and the default `in_averageOver` of
`D3D12GpuTimer`: the smoothing constant for telemetry. -/
def AVERAGE_OVER : ℕ := 20

/-!
## Conversion of an `int` particle count to IEEE single precision

`Compute::Simulate` computes the dispatch size as
`static_cast<UINT>(ceil(in_numActiveParticles / float(BLOCK_SIZE)))`.
The `int` operand is first converted to `float` (24-bit significand,
round to nearest, ties to even); the subsequent division by 64 and the
`ceil` are exact, so only that first conversion can round.
-/

/-- Fuel-driven bit length: `bitLenAux f n` is the number of binary digits of
`n`, provided `n ≤ f`. -/
def bitLenAux : ℕ → ℕ → ℕ
  | 0, _ => 0
  | f + 1, n => if n = 0 then 0 else bitLenAux f (n / 2) + 1

/-- Number of binary digits of `n` (0 for 0). -/
def bitLen (n : ℕ) : ℕ := bitLenAux n n

/-- Round `n` to the nearest IEEE-754 single-precision value (24 significant
bits, round to nearest, ties to even).  Exact for `n ≤ 2 ^ 24`. -/
def toFloat32 (n : ℕ) : ℕ :=
  if bitLen n ≤ 24 then n
  else
    let e := bitLen n - 24
    let q := n / 2 ^ e
    let r := n % 2 ^ e
    let half := 2 ^ (e - 1)
    (if half < r ∨ (r = half ∧ q % 2 = 1) then q + 1 else q) * 2 ^ e

/-- Number of thread groups issued by the `Dispatch` in `Compute::Simulate`:
`ceil(float(n) / 64)`; the division by the power of two and the `ceil`
are exact over floats, so the whole expression equals the exact ceiling
applied to the rounded operand. -/
def dispatchGroups (n : ℕ) : ℕ := (toFloat32 n + (BLOCK_SIZE - 1)) / BLOCK_SIZE

/-!
## UAV descriptor heap of the compute device

`Compute.cpp` lays out the shader-visible heap as
`[UavParticlePos0, UavParticlePos1, UavParticlePos0Copy,
  UavParticleVel0, UavParticleVel1, UavParticleVel0Copy]`,
where the `Copy` entries are second descriptors of buffer 0
("so we can ping-pong just by moving the heap base").
`Compute::Simulate` binds the descriptor table at base
`UavParticlePos0 + oldIndex`, so the kernel's first UAV register reads
position slot `oldIndex` and its second writes the slot the next heap
entry points at.
-/

/-- A position or velocity buffer slot on the compute device. -/
inductive UavSlot
  | pos (i : ℕ)
  | vel (i : ℕ)
deriving DecidableEq

/-- The descriptor heap contents written by `Compute::CreateSharedBuffers`. -/
def computeSrvHeap : ℕ → UavSlot
  | 0 => .pos 0
  | 1 => .pos 1
  | 2 => .pos 0
  | 3 => .vel 0
  | 4 => .vel 1
  | _ => .vel 0

/-!
## Queues, fences and the per-frame command/event trace

One steady-state `Particles::Draw` tick (no reconfiguration) performs, in
host order:
`Render::UpdateCamera` → `Render::CopySimulationResults` → render command
list + `Present` → a render-queue wait on the copy fence →
`Render::MoveToNextFrame` → `Compute::Simulate` (which ends in
`Compute::MoveToNextFrame`) → an optional host wait on the handle `Draw`
returned.  Every fence operation, copy, draw, dispatch and host wait is
recorded as an event; queue-level `Wait`/`Signal`/`ExecuteCommandLists`
execute in submission order on their queue.
-/

/-- The three fences: `Compute::m_fence`, `Render::m_renderFence`,
`Render::m_copyFence`. -/
inductive Fence
  | computeFence
  | renderFence
  | copyFence
deriving DecidableEq

/-- The three hardware queues. -/
inductive Queue
  | computeQueue
  | renderQueue
  | copyQueue
deriving DecidableEq

/-- Objects the host thread can block on in the steady-state path. -/
inductive WaitObj
  | swapChainEvent
  | renderFenceEvent
deriving DecidableEq

/-- One observable step of the steady-state frame loop. -/
inductive Ev
  /-- `queue->Wait(fence, v)`: enqueued GPU-side wait. -/
  | gpuWait (q : Queue) (f : Fence) (v : ℕ)
  /-- `queue->Signal(fence, v)`. -/
  | gpuSignal (q : Queue) (f : Fence) (v : ℕ)
  /-- the `CopyBufferRegion` executed on the copy queue:
  source shared-heap slot, destination local slot, element count. -/
  | copyExec (srcSharedIndex dstLocalIndex count : ℕ)
  /-- the `DrawInstanced` on the render queue: local slot sampled, count. -/
  | drawExec (srvIndex count : ℕ)
  /-- the compute-shader `Dispatch`: group count, slot read, slot written. -/
  | dispatchExec (groups : ℕ) (readSlot writeSlot : UavSlot)
  /-- `swapChain->Present`. -/
  | present
  /-- `D3D12GpuTimer::ResolveAllTimers` recorded on a queue's command list. -/
  | timerResolve (q : Queue)
  /-- a host-thread `WaitForSingleObject(Ex)`; `boundedMs = none` means
  `INFINITE`. -/
  | hostWait (o : WaitObj) (boundedMs : Option ℕ)
deriving DecidableEq

/-- Host-visible state of the `Compute` object. -/
structure ComputeState where
  /-- `m_bufferIndex` -/
  bufferIndex : ℕ
  /-- `m_fenceValue` -/
  fenceValue : ℕ
  /-- `m_frameFenceValues` -/
  frameFenceValues : ℕ → ℕ

/-- `Compute::MoveToNextFrame` without its queue `Signal` (recorded by the
caller): store the fence value for the frame, advance it, flip the index. -/
def computeMoveToNextFrame (st : ComputeState) : ComputeState :=
  { bufferIndex := 1 - st.bufferIndex
    fenceValue := st.fenceValue + 1
    frameFenceValues := fun i =>
      if i = st.bufferIndex then st.fenceValue else st.frameFenceValues i }

/-- `Compute::Simulate(in_numActiveParticles, in_sharedFenceValue)`:
wait for the previous copy, dispatch reading the old slot and writing the
new slot, resolve timers, signal and advance (`MoveToNextFrame`). -/
def computeSimulate (numActive sharedFenceValue : ℕ) (st : ComputeState) :
    List Ev × ComputeState :=
  let oldIndex := st.bufferIndex
  ([ .gpuWait .computeQueue .copyFence (sharedFenceValue - 1),
     .dispatchExec (dispatchGroups numActive)
       (computeSrvHeap oldIndex) (computeSrvHeap (oldIndex + 1)),
     .timerResolve .computeQueue,
     .gpuSignal .computeQueue .computeFence st.fenceValue ],
   computeMoveToNextFrame st)

/-- Host-visible state of the `Render` object. -/
structure RenderState where
  /-- `m_renderFenceValue` -/
  renderFenceValue : ℕ
  /-- `m_copyFenceValue` -/
  copyFenceValue : ℕ
  /-- `m_sharedBufferIndex` (render's view into the shared heap) -/
  sharedBufferIndex : ℕ
  /-- `m_currentBufferIndex` (render's local ping-pong index) -/
  currentBufferIndex : ℕ
  /-- `m_frameIndex` (swap-chain back-buffer index) -/
  frameIndex : ℕ
  /-- `m_frameFenceValues` -/
  frameFenceValues : ℕ → ℕ

/-- `Render::CopySimulationResults(in_fenceValue, in_numActiveParticles)`:
wait on the previous render-queue frame, execute the copy from shared slot
`1 - m_sharedBufferIndex` into local slot `1 - m_currentBufferIndex`
(flipping the shared index for next time), then wait on the compute fence
and signal the incremented copy fence. -/
def copySimulationResults (fenceValue numActive : ℕ) (st : RenderState) :
    List Ev × RenderState :=
  let srcSharedIndex := 1 - st.sharedBufferIndex
  let dstLocalIndex := 1 - st.currentBufferIndex
  ([ .gpuWait .copyQueue .renderFence (st.renderFenceValue - 1),
     .copyExec srcSharedIndex dstLocalIndex numActive,
     .gpuWait .copyQueue .computeFence fenceValue,
     .gpuSignal .copyQueue .copyFence (st.copyFenceValue + 1) ],
   { st with
       sharedBufferIndex := 1 - st.sharedBufferIndex
       copyFenceValue := st.copyFenceValue + 1 })

/-- `Render::MoveToNextFrame`: record and signal the render fence, advance
it, adopt the swap chain's next back-buffer index, and return a non-null
event handle exactly when the fence completion (`completed`, an
environment input) has not reached the stored value for the new frame. -/
def renderMoveToNextFrame (nextFrameIndex completed : ℕ) (st : RenderState) :
    List Ev × Option WaitObj × RenderState :=
  let ffv := fun i =>
    if i = st.frameIndex then st.renderFenceValue else st.frameFenceValues i
  let st' := { st with
                 frameFenceValues := ffv
                 renderFenceValue := st.renderFenceValue + 1
                 frameIndex := nextFrameIndex }
  ([ .gpuSignal .renderQueue .renderFence st.renderFenceValue ],
   (if completed < ffv nextFrameIndex then some .renderFenceEvent else none),
   st')

/-- `Render::Draw(in_numActiveParticles, ., inout_fenceValue,
in_numParticlesCopied)`: camera update (host wait on the swap-chain
latency waitable, 1000 ms bound), kick the copy, build and submit the
graphics list sampling local slot `m_currentBufferIndex` (then flip it),
present, enqueue the render-queue wait on the copy fence, and move to the
next frame.  Returns the copy-fence value written back through
`inout_fenceValue` and the optional wait handle. -/
def renderDraw (numActive fenceValue numCopied nextFrameIndex completed : ℕ)
    (st : RenderState) : List Ev × (ℕ × Option WaitObj) × RenderState :=
  let camEvs := [Ev.hostWait .swapChainEvent (some 1000)]
  let copyStep := copySimulationResults fenceValue numCopied st
  let st₁ := copyStep.2
  let drawEvs := [Ev.drawExec st₁.currentBufferIndex numActive,
                  Ev.timerResolve .renderQueue, Ev.present,
                  Ev.gpuWait .renderQueue .copyFence st₁.copyFenceValue]
  let st₂ := { st₁ with currentBufferIndex := 1 - st₁.currentBufferIndex }
  let nextStep := renderMoveToNextFrame nextFrameIndex completed st₂
  (camEvs ++ copyStep.1 ++ drawEvs ++ nextStep.1,
   (st₂.copyFenceValue, nextStep.2.1), nextStep.2.2)

/-- Combined steady-state system state. -/
structure SysState where
  compute : ComputeState
  render : RenderState

/-- One steady-state `Particles::Draw` tick: read the compute fence value,
`Render::Draw`, `Compute::Simulate` with the value `Draw` wrote back,
then the optional host wait on the returned handle. -/
def particlesTick (numSim numRen numCopied nextFrameIndex completed : ℕ)
    (sys : SysState) : List Ev × SysState :=
  let renderSharedFenceValue := sys.compute.fenceValue
  let drawStep := renderDraw numRen renderSharedFenceValue numCopied
    nextFrameIndex completed sys.render
  let outFence := drawStep.2.1.1
  let simStep := computeSimulate numSim outFence sys.compute
  let hostEvs := match drawStep.2.1.2 with
    | some o => [Ev.hostWait o none]
    | none => []
  (drawStep.1 ++ simStep.1 ++ hostEvs, ⟨simStep.2, drawStep.2.2⟩)

/-- Run `n` steady-state frames.  `nextFi` and `completed` supply, per frame,
the swap chain's next back-buffer index and the render fence's completed
value (both environment inputs). -/
def runFrames (nextFi completed : ℕ → ℕ) (numSim numRen numCopied : ℕ) :
    ℕ → SysState → List Ev × SysState
  | 0, sys => ([], sys)
  | n + 1, sys =>
      let first := particlesTick numSim numRen numCopied (nextFi 0)
        (completed 0) sys
      let rest := runFrames (fun k => nextFi (k + 1)) (fun k => completed (k + 1))
        numSim numRen numCopied n first.2
      (first.1 ++ rest.1, rest.2)

/-!
## State after first construction

Tracing the constructors: `Compute::Initialize` creates `m_fence` at value
0 and increments `m_fenceValue` to 1; the three `Compute::WaitForGpu`
calls (end of `Initialize`, end of `InitializeParticles`, end of the
constructor) signal 1, 2, 3 and leave `m_fenceValue = 4`.
`Render::LoadAssets` creates `m_renderFence` at 0, increments to 1, and its
closing `WaitForGpu` signals copy fence 1 and render fence 1, leaving
`m_renderFenceValue = 2, m_copyFenceValue = 1`; `Render::SetShared`
(called from `Particles::ShareHandles`) ends with another `WaitForGpu`,
leaving `m_renderFenceValue = 3, m_copyFenceValue = 2`, and sets
`m_sharedBufferIndex` from `Compute::GetSharedHandles`, i.e. from
`Compute::m_bufferIndex = 0`.
-/

def initCompute : ComputeState :=
  { bufferIndex := 0, fenceValue := 4, frameFenceValues := fun _ => 0 }

def initRender : RenderState :=
  { renderFenceValue := 3, copyFenceValue := 2, sharedBufferIndex := 0,
    currentBufferIndex := 0, frameIndex := 0, frameFenceValues := fun _ => 0 }

def initSys : SysState := ⟨initCompute, initRender⟩

/-- Fence values already signaled during construction, before the first
frame: compute fence 0..3 (created at 0, `WaitForGpu` signals 1, 2, 3),
render fence 0..2, copy fence 0..2. -/
def initSignaled : Fence → ℕ → Prop
  | .computeFence, v => v < 4
  | .renderFence, v => v < 3
  | .copyFence, v => v ≤ 2

instance : ∀ f v, Decidable (initSignaled f v) := fun f v => by
  cases f <;> simp only [initSignaled] <;> infer_instance

/-!
## Closed form of the steady-state trace

Only six numbers of the system state influence the events a tick emits:
the three fence values and the three ping-pong indices.  Each tick adds 1
to every fence value and flips every index, so the whole `n`-frame trace
is the concatenation of one parametric frame template instantiated along
that orbit.  The swap-chain back-buffer index and the fence-completion
oracle only decide whether the optional host wait at the end of a tick
occurs; the existential `flag` below absorbs them.
-/

/-- The six state components that determine a tick's events. -/
structure FrameParams where
  cv : ℕ
  rv : ℕ
  pv : ℕ
  s : ℕ
  c : ℕ
  b : ℕ
deriving DecidableEq

/-- Projection of the system state onto the event-relevant components. -/
def paramsOf (sys : SysState) : FrameParams :=
  ⟨sys.compute.fenceValue, sys.render.renderFenceValue, sys.render.copyFenceValue,
   sys.render.sharedBufferIndex, sys.render.currentBufferIndex,
   sys.compute.bufferIndex⟩

/-- Per-tick evolution of the event-relevant components. -/
def shiftParams (p : FrameParams) : FrameParams :=
  ⟨p.cv + 1, p.rv + 1, p.pv + 1, 1 - p.s, 1 - p.c, 1 - p.b⟩

/-- The events of one steady-state tick, as a function of the six
event-relevant state components; `fl` records whether the optional host
wait at the end of the tick fires. -/
def frameEvsAt (numSim numRen numCopied : ℕ) (p : FrameParams) (fl : Bool) :
    List Ev :=
  [ .hostWait .swapChainEvent (some 1000),
    .gpuWait .copyQueue .renderFence (p.rv - 1),
    .copyExec (1 - p.s) (1 - p.c) numCopied,
    .gpuWait .copyQueue .computeFence p.cv,
    .gpuSignal .copyQueue .copyFence (p.pv + 1),
    .drawExec p.c numRen,
    .timerResolve .renderQueue,
    .present,
    .gpuWait .renderQueue .copyFence (p.pv + 1),
    .gpuSignal .renderQueue .renderFence p.rv,
    .gpuWait .computeQueue .copyFence p.pv,
    .dispatchExec (dispatchGroups numSim)
      (computeSrvHeap p.b) (computeSrvHeap (p.b + 1)),
    .timerResolve .computeQueue,
    .gpuSignal .computeQueue .computeFence p.cv ]
  ++ (if fl then [.hostWait .renderFenceEvent none] else [])

/-- Whether the handle returned by `Render::MoveToNextFrame` is non-null
for this tick (so `Particles::Draw` performs the host wait). -/
def tickFlag (nextFrameIndex completed : ℕ) (sys : SysState) : Bool :=
  completed <
    (if nextFrameIndex = sys.render.frameIndex then sys.render.renderFenceValue
     else sys.render.frameFenceValues nextFrameIndex)

/-!
## Trace projections
-/

/-- Source shared-heap slots of the `CopyBufferRegion`s in a trace. -/
def copySrcIndices (evs : List Ev) : List ℕ :=
  evs.filterMap fun e => match e with
    | .copyExec src _ _ => some src
    | _ => none

/-- Position slots written by the compute dispatches in a trace. -/
def dispatchWriteSlots (evs : List Ev) : List UavSlot :=
  evs.filterMap fun e => match e with
    | .dispatchExec _ _ w => some w
    | _ => none

/-- Commands submitted to the copy queue (in submission order). -/
def isCopyQueueCmd : Ev → Bool
  | .gpuWait .copyQueue _ _ => true
  | .gpuSignal .copyQueue _ _ => true
  | .copyExec _ _ _ => true
  | _ => false

/-- The copy queue's submission stream within a trace. -/
def copyQueueEvs (evs : List Ev) : List Ev := evs.filter isCopyQueueCmd

/-- `true` iff some wait on the compute fence is submitted to the copy
queue before the first copy command of the stream; since a queue executes
`Wait`s and command lists in submission order, this is exactly "the wait
gates the execution of that copy". -/
def computeWaitPrecedesCopy (evs : List Ev) : Bool :=
  (evs.takeWhile fun e => match e with
    | .copyExec _ _ _ => false
    | _ => true).any fun e => match e with
      | .gpuWait .copyQueue .computeFence _ => true
      | _ => false

/-- Values signaled on fence `f` in a trace, in submission order. -/
def signalsOf (f : Fence) (evs : List Ev) : List ℕ :=
  evs.filterMap fun e => match e with
    | .gpuSignal _ f' v => if f' = f then some v else none
    | _ => none

/-- The (fence, value) pairs of every queue-level wait in a trace. -/
def waitsOf (evs : List Ev) : List (Fence × ℕ) :=
  evs.filterMap fun e => match e with
    | .gpuWait _ f v => some (f, v)
    | _ => none

/-- The host-blocking waits of a trace, with their timeout bound
(`none` = `INFINITE`). -/
def hostWaitsOf (evs : List Ev) : List (WaitObj × Option ℕ) :=
  evs.filterMap fun e => match e with
    | .hostWait o b => some (o, b)
    | _ => none

/-!
## Async-compute aliasing (`Compute::SetAsync`, `Compute::ResetFromAsyncHelper`)

`Compute::Initialize` ends with
`m_sharedComputeBuffersReference[i] = m_positionBuffers[i]` (a second
reference kept "to simplify transitioning out of async compute mode").
`SetAsync` replaces the position buffers with supplied ones;
`ResetFromAsyncHelper` compares `m_positionBuffers[0]` with the retained
reference by pointer identity and copies back through the shared buffers
only when they differ.  In the program, `SetAsync` is called only from
`ResetFromAsyncHelper` itself (with the retained references);
`Particles::Particles` and `Particles::Draw` construct `Render` and
`Compute` the same way whatever the adapter selection and never pass
`Render`'s local buffers to `SetAsync`.
-/

/-- Identity of a GPU buffer resource (for pointer-identity comparison). -/
inductive Res
  | computeSharedPlaced (i : ℕ)
  | renderLocal (i : ℕ)
deriving DecidableEq

/-- The buffer wiring of a `Compute` instance. -/
structure ComputeBuffers where
  /-- `m_positionBuffers[0]`, `m_positionBuffers[1]` -/
  positionBuffers : Res × Res
  /-- `m_sharedComputeBuffersReference[0..1]` -/
  sharedComputeBuffersReference : Res × Res
  /-- `m_bufferIndex` -/
  bufferIndex : ℕ
deriving DecidableEq

/-- `Compute::Initialize`: `CreateSharedBuffers` creates the position
buffers as placed resources in the instance's own cross-adapter shared
heap, then retains a second reference to each. -/
def computeInitializeBuffers : ComputeBuffers :=
  { positionBuffers := (.computeSharedPlaced 0, .computeSharedPlaced 1)
    sharedComputeBuffersReference := (.computeSharedPlaced 0, .computeSharedPlaced 1)
    bufferIndex := 0 }

/-- `Compute::SetAsync(fence, buffers, index)`: adopt the supplied buffers
and set `m_bufferIndex = 1 - index`. -/
def setAsync (buffers : Res × Res) (index : ℕ) (st : ComputeBuffers) :
    ComputeBuffers :=
  { st with positionBuffers := buffers, bufferIndex := 1 - index }

/-- `Compute::ResetFromAsyncHelper`: when the retained reference matches
the current position buffer (pointer identity), return without copying;
otherwise copy the contents back and restore the shared references via
`SetAsync`.  The `Bool` records whether a copy-back was performed. -/
def resetFromAsyncHelper (st : ComputeBuffers) : Bool × ComputeBuffers :=
  if st.positionBuffers.1 = st.sharedComputeBuffersReference.1 then (false, st)
  else (true, setAsync st.sharedComputeBuffersReference st.bufferIndex st)

/-- Buffer wiring produced by `Particles::Particles` (and by the
compute-adapter-change branch of `Particles::Draw`): the `Compute`
constructor runs identically whatever the adapter selection — no call
site in the program passes `Render`'s local buffers to `SetAsync`, so the
adapter indices do not influence the wiring. -/
def particlesConstructComputeBuffers
    (_computeAdapterIndex _renderAdapterIndex : ℕ) : ComputeBuffers :=
  computeInitializeBuffers

/-!
## Vendor queue-extension toggling
(`Compute::SetUseIntelCommandQueueExtension`,
`Render::SetUseIntelCommandQueueExtension`,
`AdapterShared::GetUsingIntelCommandQueueExtension`)
-/

/-- Extension-related state of either adapter wrapper. -/
structure AdapterExtState where
  /-- `m_usingIntelCommandQueueExtension` -/
  usingIntelCommandQueueExtension : Bool
  /-- `m_pExtensionHelper->GetEnabled()` (fixed per device) -/
  helperEnabled : Bool
deriving DecidableEq

/-- `SetUseIntelCommandQueueExtension(in_desiredSetting)`:
`in_desiredSetting = in_desiredSetting && m_pExtensionHelper->GetEnabled()`,
then recreate the command queue only if the effective setting differs
from the current one.  Returns whether the queue was recreated.  The
function has no failure path: an unsupported request silently falls back
to the non-extension path. -/
def setUseIntelCommandQueueExtension (desiredSetting : Bool)
    (st : AdapterExtState) : Bool × AdapterExtState :=
  let desired := desiredSetting && st.helperEnabled
  if st.usingIntelCommandQueueExtension ≠ desired then
    (true, { st with usingIntelCommandQueueExtension := desired })
  else
    (false, st)

/-- `AdapterShared::GetUsingIntelCommandQueueExtension`. -/
def getUsingIntelCommandQueueExtension (st : AdapterExtState) : Bool :=
  st.usingIntelCommandQueueExtension

/-!
## Telemetry smoothing
(`D3D12GpuTimer::ResolveAllTimers`, host frame time in `Particles::Draw`)

Both updates have the same shape: the GPU timer does
`const float t = m_times[i].first * (m_averageOver - 1);
 m_times[i].first = (t + delta) / m_averageOver;`
and the host frame time does
`m_frameTime *= (AVERAGE_OVER - 1); m_frameTime += frameTime;
 m_frameTime /= AVERAGE_OVER;`
with `AVERAGE_OVER = 20`.  The float arithmetic is modelled exactly over
`ℚ`; the shape of the recurrence (an exponentially weighted average, not
a fixed-window mean) is unaffected by rounding.
-/

/-- One `ResolveAllTimers` update of a timer's exposed value. -/
def gpuTimerUpdate (averageOver : ℕ) (prev delta : ℚ) : ℚ :=
  (prev * ((averageOver - 1 : ℕ) : ℚ) + delta) / (averageOver : ℚ)

/-- One per-tick update of `m_frameTime` in `Particles::Draw`. -/
def frameTimeUpdate (prev sample : ℚ) : ℚ :=
  (prev * ((AVERAGE_OVER - 1 : ℕ) : ℚ) + sample) / (AVERAGE_OVER : ℚ)

/-- The exposed telemetry value after feeding a sequence of per-frame
samples through an update rule. -/
def telemetrySeries (update : ℚ → ℚ → ℚ) (init : ℚ) (samples : List ℚ) : ℚ :=
  samples.foldl update init

/-- The claim's notion, written from the spec's words: the trailing moving
average over a fixed window of the last `w` per-frame samples. -/
def specTrailingWindowMean (w : ℕ) (samples : List ℚ) : ℚ :=
  (samples.drop (samples.length - w)).sum / (w : ℚ)

/-!
## Initial particle seeding
(`LoadParticles`, `Compute::InitializeParticles`, `USE_ORIG` path)

The vector arithmetic runs in single-precision SIMD registers; it is
embedded over an abstract vector type `V` with the operations
`LoadParticles` uses, so the theorems quantify over every possible
floating-point behaviour of those operations.  The random draws of the
rejection loop come from a per-particle stream `rand` (the shared
`mt19937` is not thread safe under `concurrency::parallel_for`, so the
actual draw order is nondeterministic; an arbitrary stream subsumes it),
and `fuel` bounds the iterations the `while` loop takes. -/

/-- The vector operations `LoadParticles` uses. -/
structure VecOps (V : Type) where
  vadd : V → V → V
  vsub : V → V → V
  scale : ℚ → V → V
  cross : V → V → V
  normalize : V → V
  normalizeEst : V → V
  lengthSqLt10 : V → Bool
  ones : V
  xAxis : ℚ → V

/-- `INITIAL_PARTICLE_SPEED` from `defines.h` (15.0f, exact). -/
def INITIAL_PARTICLE_SPEED : ℚ := 15

/-- `PARTICLE_SPREAD` from `defines.h` (400.0f, exact). -/
def PARTICLE_SPREAD : ℚ := 400

/-- The `while (XMVector3LengthSq(delta) < 10) delta += random` rejection
loop, with `fuel` bounding the iterations taken. -/
def accumDelta {V : Type} (ops : VecOps V) (rand : ℕ → V) :
    ℕ → ℕ → V → V
  | 0, _, d => d
  | fuel + 1, k, d =>
      if ops.lengthSqLt10 d then
        accumDelta ops rand fuel (k + 1) (ops.vadd d (rand k))
      else d

/-- The accumulated random direction of one particle. -/
def loadDelta {V : Type} (ops : VecOps V) (rand : ℕ → V) (fuel : ℕ) : V :=
  accumDelta ops rand fuel 1 (rand 0)

/-- One particle's position:
`delta = XMVector3Normalize(delta) * spread; position = center + delta`. -/
def loadParticlePos {V : Type} (ops : VecOps V) (rand : ℕ → V) (fuel : ℕ)
    (center : V) (spread : ℚ) : V :=
  ops.vadd center (ops.scale spread (ops.normalize (loadDelta ops rand fuel)))

/-- One particle's velocity:
`direction = XMVector3NormalizeEst(position);
 perp = XMVector3NormalizeEst((1,1,1,0) - direction);
 velocity = XMVector3Cross(direction, perp) * initialSpeed`. -/
def loadParticleVel {V : Type} (ops : VecOps V) (p : V)
    (initialSpeed : ℚ) : V :=
  let direction := ops.normalizeEst p
  let perp := ops.normalizeEst (ops.vsub ops.ones direction)
  ops.scale initialSpeed (ops.cross direction perp)

/-- `LoadParticles(out_pParticles, out_pVelocities, center, initialSpeed,
spread, numParticles)`: writes positions and velocities for indices
`< numParticles` (as functions with explicit written domain). -/
def loadParticles {V : Type} (ops : VecOps V) (rand : ℕ → ℕ → V)
    (fuel : ℕ → ℕ) (center : V) (initialSpeed spread : ℚ)
    (numParticles : ℕ) : (ℕ → Option V) × (ℕ → Option V) :=
  (fun i => if i < numParticles then
      some (loadParticlePos ops (rand i) (fuel i) center spread) else none,
   fun i => if i < numParticles then
      some (loadParticleVel ops
        (loadParticlePos ops (rand i) (fuel i) center spread)
        initialSpeed) else none)

/-- The seeded position data of `Compute::InitializeParticles`:
`centerSpread = ParticleSpread * 0.750f`;
`LoadParticles(&positions[0], …, (centerSpread, 0, 0), …, n / 2)` and
`LoadParticles(&positions[n / 2], …, (-centerSpread, 0, 0), …, n / 2)`. -/
def seededPositions {V : Type} (ops : VecOps V) (rand : ℕ → ℕ → V)
    (fuel : ℕ → ℕ) (n : ℕ) : ℕ → Option V :=
  fun i =>
    if i < n / 2 then
      (loadParticles ops rand fuel
        (ops.xAxis (PARTICLE_SPREAD * (3 / 4)))
        INITIAL_PARTICLE_SPEED PARTICLE_SPREAD (n / 2)).1 i
    else
      (loadParticles ops (fun j => rand (n / 2 + j))
        (fun j => fuel (n / 2 + j))
        (ops.xAxis (-(PARTICLE_SPREAD * (3 / 4))))
        INITIAL_PARTICLE_SPEED PARTICLE_SPREAD (n / 2)).1 (i - n / 2)

/-- The seeded velocity data of `Compute::InitializeParticles`. -/
def seededVelocities {V : Type} (ops : VecOps V) (rand : ℕ → ℕ → V)
    (fuel : ℕ → ℕ) (n : ℕ) : ℕ → Option V :=
  fun i =>
    if i < n / 2 then
      (loadParticles ops rand fuel
        (ops.xAxis (PARTICLE_SPREAD * (3 / 4)))
        INITIAL_PARTICLE_SPEED PARTICLE_SPREAD (n / 2)).2 i
    else
      (loadParticles ops (fun j => rand (n / 2 + j))
        (fun j => fuel (n / 2 + j))
        (ops.xAxis (-(PARTICLE_SPREAD * (3 / 4))))
        INITIAL_PARTICLE_SPEED PARTICLE_SPREAD (n / 2)).2 (i - n / 2)

/-- An upload recorded by `InitializeParticles`
(`UpdateSubresources` into one buffer slot). -/
inductive UploadCmd (V : Type)
  | toPositionSlot (slot : ℕ) (data : ℕ → Option V)
  | toVelocitySlot (slot : ℕ) (data : ℕ → Option V)

/-- `Compute::InitializeParticles`: generate the seed data once, then
upload the same position data into `m_positionBuffers[0]` and
`m_positionBuffers[1]` and the same velocity data into
`m_velocityBuffers[0]` and `m_velocityBuffers[1]`. -/
def initializeParticles {V : Type} (ops : VecOps V) (rand : ℕ → ℕ → V)
    (fuel : ℕ → ℕ) (n : ℕ) : List (UploadCmd V) :=
  [ .toPositionSlot 0 (seededPositions ops rand fuel n),
    .toPositionSlot 1 (seededPositions ops rand fuel n),
    .toVelocitySlot 0 (seededVelocities ops rand fuel n),
    .toVelocitySlot 1 (seededVelocities ops rand fuel n) ]

/-- `assert(m_numParticles != 0)` at the top of `InitializeParticles`;
active in debug builds only — release builds run the seeding
unconditionally. -/
def initializeParticlesAssert (n : ℕ) : Bool := n != 0

/-- A concrete instantiation of the vector operations over `ℚ`, used to
evaluate the seeding model at concrete inputs. -/
def ratVecOps : VecOps ℚ :=
  { vadd := (· + ·)
    vsub := (· - ·)
    scale := (· * ·)
    cross := (· * ·)
    normalize := id
    normalizeEst := id
    lengthSqLt10 := fun _ => false
    ones := 1
    xAxis := id }

/-!
## Theorems
-/

theorem bitLenAux_le : ∀ (f n k : ℕ), n ≤ f → n < 2 ^ k → bitLenAux f n ≤ k := by
  intro f
  induction f with
  | zero => intro n k _ _; simp [bitLenAux]
  | succ f ih =>
    intro n k hnf hnk
    by_cases hn : n = 0
    · simp [bitLenAux, hn]
    · have hk : k ≠ 0 := by
        rintro rfl
        interval_cases n <;> simp_all
      have hpow : (2 : ℕ) ^ k = 2 * 2 ^ (k - 1) := by
        conv_lhs => rw [← Nat.succ_pred_eq_of_pos (Nat.pos_of_ne_zero hk)]
        rw [pow_succ, Nat.pred_eq_sub_one]
        ring
      have h2 : n / 2 < 2 ^ (k - 1) := by omega
      have hf : n / 2 ≤ f := by omega
      have := ih (n / 2) (k - 1) hf h2
      simp only [bitLenAux, hn, if_false]
      omega

theorem bitLen_le {n k : ℕ} (h : n < 2 ^ k) : bitLen n ≤ k :=
  bitLenAux_le n n k le_rfl h

theorem toFloat32_eq_self {n : ℕ} (h : n ≤ 2 ^ 24) : toFloat32 n = n := by
  rcases lt_or_eq_of_le h with hlt | heq
  · have hs : bitLen n ≤ 24 := bitLen_le hlt
    simp [toFloat32, hs]
  · subst heq
    decide

theorem dispatchGroups_eq_ceilDiv {n : ℕ} (h : n ≤ 2 ^ 24) :
    dispatchGroups n = (n + 63) / 64 := by
  unfold dispatchGroups BLOCK_SIZE
  rw [toFloat32_eq_self h]

theorem computeSrvHeap_write_slot {b : ℕ} (hb : b ≤ 1) :
    computeSrvHeap (b + 1) = .pos (1 - b) := by
  interval_cases b <;> rfl

theorem particlesTick_trace (numSim numRen numCopied fi comp : ℕ)
    (sys : SysState) :
    (particlesTick numSim numRen numCopied fi comp sys).1 =
      frameEvsAt numSim numRen numCopied (paramsOf sys)
        (tickFlag fi comp sys) := by
  by_cases h : comp <
      (if fi = sys.render.frameIndex then sys.render.renderFenceValue
       else sys.render.frameFenceValues fi) <;>
    simp [particlesTick, renderDraw, copySimulationResults,
      renderMoveToNextFrame, computeSimulate, frameEvsAt, tickFlag,
      paramsOf, h]

theorem particlesTick_params (numSim numRen numCopied fi comp : ℕ)
    (sys : SysState) :
    paramsOf (particlesTick numSim numRen numCopied fi comp sys).2 =
      shiftParams (paramsOf sys) :=
  rfl

theorem flatMap_map_eq {α β γ : Type} (g : β → List γ) (f : α → β)
    (l : List α) : (l.map f).flatMap g = l.flatMap fun x => g (f x) := by
  induction l with
  | nil => rfl
  | cons x xs ih => simp [ih]

/-- Master closed form: the `n`-frame steady-state trace is the frame
template instantiated along the `shiftParams` orbit of the initial
state's parameters. -/
theorem runFrames_trace (numSim numRen numCopied : ℕ) :
    ∀ (n : ℕ) (nextFi completed : ℕ → ℕ) (sys : SysState),
    ∃ flag : ℕ → Bool,
      (runFrames nextFi completed numSim numRen numCopied n sys).1 =
        (List.range n).flatMap fun f =>
          frameEvsAt numSim numRen numCopied
            (shiftParams^[f] (paramsOf sys)) (flag f) := by
  intro n
  induction n with
  | zero => intro nextFi completed sys; exact ⟨fun _ => false, rfl⟩
  | succ n ih =>
    intro nextFi completed sys
    obtain ⟨flag, hflag⟩ := ih (fun k => nextFi (k + 1))
      (fun k => completed (k + 1))
      (particlesTick numSim numRen numCopied (nextFi 0) (completed 0) sys).2
    refine ⟨fun f => if f = 0 then tickFlag (nextFi 0) (completed 0) sys
      else flag (f - 1), ?_⟩
    have hrun : (runFrames nextFi completed numSim numRen numCopied (n + 1) sys).1 =
        (particlesTick numSim numRen numCopied (nextFi 0) (completed 0) sys).1 ++
        (runFrames (fun k => nextFi (k + 1)) (fun k => completed (k + 1))
          numSim numRen numCopied n
          (particlesTick numSim numRen numCopied (nextFi 0) (completed 0) sys).2).1 :=
      rfl
    rw [hrun, hflag, particlesTick_trace, List.range_succ_eq_map,
      List.flatMap_cons, flatMap_map_eq]
    have h2 : ((List.range n).flatMap fun f =>
        frameEvsAt numSim numRen numCopied
          (shiftParams^[Nat.succ f] (paramsOf sys))
          (if Nat.succ f = 0 then tickFlag (nextFi 0) (completed 0) sys
           else flag (Nat.succ f - 1))) =
        (List.range n).flatMap fun f =>
          frameEvsAt numSim numRen numCopied
            (shiftParams^[f]
              (paramsOf (particlesTick numSim numRen numCopied (nextFi 0)
                (completed 0) sys).2)) (flag f) := by
      apply List.flatMap_congr
      intro f _
      rw [Function.iterate_succ_apply, particlesTick_params]
      simp
    rw [h2]
    simp

/-- State evolution: after `n` frames the event-relevant components have
advanced `n` steps along the `shiftParams` orbit. -/
theorem runFrames_params (numSim numRen numCopied : ℕ) :
    ∀ (n : ℕ) (nextFi completed : ℕ → ℕ) (sys : SysState),
      paramsOf (runFrames nextFi completed numSim numRen numCopied n sys).2 =
        shiftParams^[n] (paramsOf sys) := by
  intro n
  induction n with
  | zero => intro nextFi completed sys; rfl
  | succ n ih =>
    intro nextFi completed sys
    have hrun : (runFrames nextFi completed numSim numRen numCopied (n + 1) sys).2 =
        (runFrames (fun k => nextFi (k + 1)) (fun k => completed (k + 1))
          numSim numRen numCopied n
          (particlesTick numSim numRen numCopied (nextFi 0) (completed 0) sys).2).2 :=
      rfl
    rw [hrun, ih, particlesTick_params, Function.iterate_succ_apply]

theorem shiftParams_iterate (f cv rv pv s c b : ℕ)
    (hs : s ≤ 1) (hc : c ≤ 1) (hb : b ≤ 1) :
    shiftParams^[f] ⟨cv, rv, pv, s, c, b⟩ =
      ⟨cv + f, rv + f, pv + f, (s + f) % 2, (c + f) % 2, (b + f) % 2⟩ := by
  induction f with
  | zero =>
    simp only [Function.iterate_zero, id_eq, FrameParams.mk.injEq]
    omega
  | succ f ih =>
    rw [Function.iterate_succ_apply', ih]
    simp only [shiftParams, FrameParams.mk.injEq]
    omega

theorem paramsOf_initSys : paramsOf initSys = ⟨4, 3, 2, 0, 0, 0⟩ := rfl

theorem shiftParams_iterate_init (f : ℕ) :
    shiftParams^[f] (paramsOf initSys) =
      ⟨4 + f, 3 + f, 2 + f, f % 2, f % 2, f % 2⟩ := by
  rw [paramsOf_initSys,
    shiftParams_iterate f 4 3 2 0 0 0 (by norm_num) (by norm_num) (by norm_num)]
  norm_num

theorem copySrcIndices_frame (numSim numRen numCopied : ℕ) (p : FrameParams)
    (fl : Bool) :
    copySrcIndices (frameEvsAt numSim numRen numCopied p fl) = [1 - p.s] := by
  cases fl <;> rfl

theorem dispatchWriteSlots_frame (numSim numRen numCopied : ℕ)
    (p : FrameParams) (fl : Bool) :
    dispatchWriteSlots (frameEvsAt numSim numRen numCopied p fl) =
      [computeSrvHeap (p.b + 1)] := by
  cases fl <;> rfl

theorem copyQueueEvs_frame (numSim numRen numCopied : ℕ) (p : FrameParams)
    (fl : Bool) :
    copyQueueEvs (frameEvsAt numSim numRen numCopied p fl) =
      [ .gpuWait .copyQueue .renderFence (p.rv - 1),
        .copyExec (1 - p.s) (1 - p.c) numCopied,
        .gpuWait .copyQueue .computeFence p.cv,
        .gpuSignal .copyQueue .copyFence (p.pv + 1) ] := by
  cases fl <;> rfl

theorem signalsOf_frame (numSim numRen numCopied : ℕ) (p : FrameParams)
    (fl : Bool) :
    signalsOf .computeFence (frameEvsAt numSim numRen numCopied p fl) = [p.cv]
    ∧ signalsOf .renderFence (frameEvsAt numSim numRen numCopied p fl) = [p.rv]
    ∧ signalsOf .copyFence (frameEvsAt numSim numRen numCopied p fl) =
        [p.pv + 1] := by
  cases fl <;> exact ⟨rfl, rfl, rfl⟩

theorem waitsOf_frame (numSim numRen numCopied : ℕ) (p : FrameParams)
    (fl : Bool) :
    waitsOf (frameEvsAt numSim numRen numCopied p fl) =
      [ (.renderFence, p.rv - 1), (.computeFence, p.cv),
        (.copyFence, p.pv + 1), (.copyFence, p.pv) ] := by
  cases fl <;> rfl

theorem hostWaitsOf_frame (numSim numRen numCopied : ℕ) (p : FrameParams)
    (fl : Bool) :
    hostWaitsOf (frameEvsAt numSim numRen numCopied p fl) =
      (.swapChainEvent, some 1000) ::
        (if fl then [(.renderFenceEvent, none)] else []) := by
  cases fl <;> rfl

theorem flatMap_singleton_eq_map {α β : Type} (g : α → β) (l : List α) :
    (l.flatMap fun x => [g x]) = l.map g := by
  induction l with
  | nil => rfl
  | cons x xs ih => simp [ih]

/-!
## Claim theorems
-/

/-- C1: the claim states that for every frame `f` the buffer slot written
by `Simulate` differs (by exactly 1 mod 2) from the slot read by the
`Copy` stage's in-flight transfer of the same frame.  The code refutes
this: starting from the shared-handle initialisation
(`m_sharedBufferIndex := Compute::m_bufferIndex`), at every frame `f`
there is a single slot index (namely `1 - f % 2`) such that the frame's
`CopyBufferRegion` reads shared slot `slot` and the frame's dispatch
writes position slot `slot` — the two stages touch the same slot every
frame, because `CopySimulationResults` reads `1 - m_sharedBufferIndex`
while its own comment says it reads `m_sharedBufferIndex`. -/
theorem simulate_write_slot_equals_copy_read_slot
    (numSim numRen numCopied f fi comp : ℕ) (nextFi completed : ℕ → ℕ) :
    ∃ slot : ℕ,
      copySrcIndices (particlesTick numSim numRen numCopied fi comp
          ((runFrames nextFi completed numSim numRen numCopied f initSys).2)).1
        = [slot]
      ∧ dispatchWriteSlots (particlesTick numSim numRen numCopied fi comp
          ((runFrames nextFi completed numSim numRen numCopied f initSys).2)).1
        = [.pos slot]
      ∧ slot = 1 - f % 2 := by
  refine ⟨1 - f % 2, ?_, ?_, rfl⟩
  · rw [particlesTick_trace, copySrcIndices_frame, runFrames_params,
      shiftParams_iterate_init]
  · rw [particlesTick_trace, dispatchWriteSlots_frame, runFrames_params,
      shiftParams_iterate_init]
    have hb : f % 2 ≤ 1 := by omega
    rw [show (FrameParams.mk (4 + f) (3 + f) (2 + f) (f % 2) (f % 2)
      (f % 2)).b = f % 2 from rfl, computeSrvHeap_write_slot hb]

/-- C2 counterexample: the claim states that the enqueued wait on the
imported compute fence gates the execution of the same frame's copy.  In
the frame-0 copy-queue submission stream the copy command is submitted
before the wait on the compute fence (and GPU queues execute waits in
submission order), so that wait gates only later commands: the stream is
`[Wait(renderFence, 2), Copy, Wait(computeFence, 4), Signal(copyFence, 3)]`
and no compute-fence wait precedes the copy. -/
theorem copy_not_gated_by_same_frame_compute_wait :
    computeWaitPrecedesCopy
      (copyQueueEvs (particlesTick 1024 1024 1024 0 0 initSys).1) = false
    ∧ copyQueueEvs (particlesTick 1024 1024 1024 0 0 initSys).1 =
      [ .gpuWait .copyQueue .renderFence 2,
        .copyExec 1 1 1024,
        .gpuWait .copyQueue .computeFence 4,
        .gpuSignal .copyQueue .copyFence 3 ] := by
  decide

/-- C2 amended: the wait on the imported compute fence for the value
passed at frame `f` is submitted to the copy queue after frame `f`'s copy
and before frame `f`'s copy-fence signal and frame `f + 1`'s copy; the
copy-queue stream of an `n`-frame steady-state run is exactly the
concatenation, over `f < n`, of
`[Wait(renderFence, 2 + f), Copy(slot 1 - f % 2 → slot 1 - f % 2, countToCopy),
  Wait(computeFence, 4 + f), Signal(copyFence, 3 + f)]`,
so (waits gating exactly the commands submitted after them) the wait for
the frame-`f` compute fence value gates the frame-`f` signal and the
frame-`f + 1` copy, not the frame-`f` copy. -/
theorem compute_wait_gates_next_frame_copy
    (n numSim numRen numCopied : ℕ) (nextFi completed : ℕ → ℕ) :
    copyQueueEvs (runFrames nextFi completed numSim numRen numCopied n
        initSys).1 =
      (List.range n).flatMap fun f =>
        [ .gpuWait .copyQueue .renderFence (2 + f),
          .copyExec (1 - f % 2) (1 - f % 2) numCopied,
          .gpuWait .copyQueue .computeFence (4 + f),
          .gpuSignal .copyQueue .copyFence (3 + f) ] := by
  obtain ⟨flag, hflag⟩ :=
    runFrames_trace numSim numRen numCopied n nextFi completed initSys
  rw [copyQueueEvs, hflag, List.filter_flatMap]
  apply List.flatMap_congr
  intro f _
  rw [show List.filter isCopyQueueCmd
        (frameEvsAt numSim numRen numCopied (shiftParams^[f] (paramsOf initSys))
          (flag f)) =
      copyQueueEvs (frameEvsAt numSim numRen numCopied
        (shiftParams^[f] (paramsOf initSys)) (flag f)) from rfl,
    copyQueueEvs_frame, shiftParams_iterate_init]
  simp <;> omega

/-- C3 counterexample: the claim asserts `Simulate(activeCount, v)` with
`0 < activeCount ≤ maxParticles` dispatches exactly
`ceil(activeCount / 64)` groups.  The code computes
`ceil(in_numActiveParticles / float(64))`: for
`activeCount = 2 ^ 25 + 1 = 33554433` (reachable, since `maxParticles`
comes from an `int` command-line option) the `int → float` conversion
rounds to `2 ^ 25` regardless of tie-breaking rules, and the call
dispatches `524288` groups although `ceil(33554433 / 64) = 524289`. -/
theorem simulate_dispatch_count_rounds_through_float :
    (computeSimulate 33554433 5 initCompute).1 =
      [ .gpuWait .computeQueue .copyFence 4,
        .dispatchExec 524288 (.pos 0) (.pos 1),
        .timerResolve .computeQueue,
        .gpuSignal .computeQueue .computeFence 4 ]
    ∧ (33554433 + 63) / 64 = 524289 := by
  constructor
  · rfl
  · rfl

/-- C3 amended: for `Simulate(activeCount, v)` with
`0 < activeCount ≤ 2 ^ 24` (the float-exact range; beyond it the group
count is `ceil(float32(activeCount) / 64)`), exactly
`ceil(activeCount / 64)` thread groups are dispatched, the kernel reads
position slot `oldIndex = bufferIndex` and writes slot
`newIndex = 1 - oldIndex` (through the descriptor-heap aliasing
`heap[2] = heap[0]`), and on return the compute fence value has increased
by exactly 1 and the buffer index has flipped to `newIndex`. -/
theorem simulate_step_contract (activeCount v : ℕ) (st : ComputeState)
    (hpos : 0 < activeCount) (hle : activeCount ≤ 2 ^ 24)
    (hb : st.bufferIndex ≤ 1) :
    (computeSimulate activeCount v st).1 =
      [ .gpuWait .computeQueue .copyFence (v - 1),
        .dispatchExec ((activeCount + 63) / 64)
          (.pos st.bufferIndex) (.pos (1 - st.bufferIndex)),
        .timerResolve .computeQueue,
        .gpuSignal .computeQueue .computeFence st.fenceValue ]
    ∧ (computeSimulate activeCount v st).2.fenceValue = st.fenceValue + 1
    ∧ (computeSimulate activeCount v st).2.bufferIndex = 1 - st.bufferIndex := by
  refine ⟨?_, rfl, rfl⟩
  have hread : computeSrvHeap st.bufferIndex = .pos st.bufferIndex := by
    interval_cases h : st.bufferIndex <;> rfl
  rw [computeSimulate]
  rw [dispatchGroups_eq_ceilDiv hle, hread, computeSrvHeap_write_slot hb]

/-- C3 witness: `Simulate(1024, 5)` from the freshly constructed compute
state dispatches `ceil(1024 / 64) = 16` groups, reads slot 0, writes
slot 1, and leaves the fence at 5 and the buffer index at 1. -/
theorem simulate_step_contract_witness :
    (computeSimulate 1024 5 initCompute).1 =
      [ .gpuWait .computeQueue .copyFence 4,
        .dispatchExec ((1024 + 63) / 64) (.pos 0) (.pos 1),
        .timerResolve .computeQueue,
        .gpuSignal .computeQueue .computeFence 4 ]
    ∧ (computeSimulate 1024 5 initCompute).2.fenceValue = 4 + 1
    ∧ (computeSimulate 1024 5 initCompute).2.bufferIndex = 1 :=
  simulate_step_contract 1024 5 initCompute (by decide) (by decide) (by decide)

/-- C4: across any steady-state run, each per-queue fence (compute,
render, copy) is signaled with strictly increasing values, and every
queue-level wait is for a value that is signaled — either already during
construction (`initSignaled`) or by a signal submitted in the run
itself. -/
theorem fences_monotonic_and_waits_eventually_signaled
    (n numSim numRen numCopied : ℕ) (nextFi completed : ℕ → ℕ) :
    (∀ φ : Fence, List.Pairwise (· < ·)
        (signalsOf φ
          (runFrames nextFi completed numSim numRen numCopied n initSys).1))
    ∧ (∀ pr ∈ waitsOf
          (runFrames nextFi completed numSim numRen numCopied n initSys).1,
        initSignaled pr.1 pr.2 ∨
          pr.2 ∈ signalsOf pr.1
            (runFrames nextFi completed numSim numRen numCopied n initSys).1) := by
  obtain ⟨flag, hflag⟩ :=
    runFrames_trace numSim numRen numCopied n nextFi completed initSys
  have hsig : ∀ φ : Fence,
      signalsOf φ (runFrames nextFi completed numSim numRen numCopied n
        initSys).1 =
      (List.range n).map fun f => (match φ with
        | .computeFence => 4 | .renderFence => 3 | .copyFence => 3) + f := by
    intro φ
    rw [signalsOf, hflag, List.filterMap_flatMap,
      ← flatMap_singleton_eq_map]
    apply List.flatMap_congr
    intro f _
    have h3 := signalsOf_frame numSim numRen numCopied
      (shiftParams^[f] (paramsOf initSys)) (flag f)
    cases φ
    · rw [show List.filterMap _ _ = signalsOf .computeFence
          (frameEvsAt numSim numRen numCopied (shiftParams^[f] (paramsOf initSys))
            (flag f)) from rfl, h3.1, shiftParams_iterate_init]
    · rw [show List.filterMap _ _ = signalsOf .renderFence
          (frameEvsAt numSim numRen numCopied (shiftParams^[f] (paramsOf initSys))
            (flag f)) from rfl, h3.2.1, shiftParams_iterate_init]
    · rw [show List.filterMap _ _ = signalsOf .copyFence
          (frameEvsAt numSim numRen numCopied (shiftParams^[f] (paramsOf initSys))
            (flag f)) from rfl, h3.2.2, shiftParams_iterate_init]
      simp only [List.cons.injEq, and_true]
      omega
  constructor
  · intro φ
    rw [hsig φ]
    exact (List.pairwise_lt_range n).map _ (fun a b h => by omega)
  · intro pr hpr
    rw [waitsOf, hflag, List.filterMap_flatMap] at hpr
    rw [List.mem_flatMap] at hpr
    obtain ⟨f, hf, hmem⟩ := hpr
    rw [List.mem_range] at hf
    rw [show List.filterMap _ _ = waitsOf
        (frameEvsAt numSim numRen numCopied (shiftParams^[f] (paramsOf initSys))
          (flag f)) from rfl, waitsOf_frame, shiftParams_iterate_init] at hmem
    simp only [List.mem_cons, List.mem_singleton, List.not_mem_nil,
      or_false] at hmem
    rcases hmem with h | h | h | h <;> subst h
    · by_cases hf0 : f = 0
      · subst hf0; left; simp [initSignaled]
      · right
        rw [hsig .renderFence, List.mem_map]
        exact ⟨f - 1, List.mem_range.mpr (by omega), by simp; omega⟩
    · right
      rw [hsig .computeFence, List.mem_map]
      exact ⟨f, List.mem_range.mpr hf, by simp⟩
    · right
      rw [hsig .copyFence, List.mem_map]
      exact ⟨f, List.mem_range.mpr hf, by simp; omega⟩
    · by_cases hf0 : f = 0
      · subst hf0; left; simp [initSignaled]
      · right
        rw [hsig .copyFence, List.mem_map]
        exact ⟨f - 1, List.mem_range.mpr (by omega), by simp; omega⟩

/-- C4 witness: in a one-frame run, the copy queue's wait on the render
fence for value 2 appears, and value 2 was signaled during construction. -/
theorem fences_monotonic_witness :
    (Fence.renderFence, 2) ∈
      waitsOf (runFrames (fun _ => 0) (fun _ => 0) 16 16 16 1 initSys).1
    ∧ (initSignaled Fence.renderFence 2 ∨
        2 ∈ signalsOf Fence.renderFence
          (runFrames (fun _ => 0) (fun _ => 0) 16 16 16 1 initSys).1) :=
  ⟨by decide,
    (fences_monotonic_and_waits_eventually_signaled 1 16 16 16
      (fun _ => 0) (fun _ => 0)).2 (Fence.renderFence, 2) (by decide)⟩

/-- C6 counterexample: the claim states each steady-state tick blocks the
host exactly once, with a bounded wait.  A tick in which the previous
frame's render fence has not completed (here: completed value 0, stored
frame fence value 3) blocks the host twice — once on the swap-chain
frame-latency waitable with a 1000 ms bound (inside `UpdateCamera`), and
once with an `INFINITE` wait on the render fence event (the handle
`Draw` returned). -/
theorem host_blocks_twice_when_fence_behind :
    hostWaitsOf (particlesTick 1024 1024 1024 0 0 initSys).1 =
      [(.swapChainEvent, some 1000), (.renderFenceEvent, none)]
    ∧ (hostWaitsOf (particlesTick 1024 1024 1024 0 0 initSys).1).length ≠ 1 := by
  decide

/-- C6 amended: each steady-state tick blocks the host exactly once on the
swap-chain frame-latency waitable with a 1000 ms bound and, in addition —
exactly when the previous frame's render fence has not yet completed —
once more, unbounded, on the render fence event; no other call in the
per-frame path blocks the host. -/
theorem host_waits_per_tick
    (n numSim numRen numCopied : ℕ) (nextFi completed : ℕ → ℕ) :
    ∃ flag : ℕ → Bool,
      hostWaitsOf (runFrames nextFi completed numSim numRen numCopied n
          initSys).1 =
        (List.range n).flatMap fun f =>
          (.swapChainEvent, some 1000) ::
            (if flag f then [(.renderFenceEvent, none)] else []) := by
  obtain ⟨flag, hflag⟩ :=
    runFrames_trace numSim numRen numCopied n nextFi completed initSys
  refine ⟨flag, ?_⟩
  rw [hostWaitsOf, hflag, List.filterMap_flatMap]
  apply List.flatMap_congr
  intro f _
  rw [show List.filterMap _ _ = hostWaitsOf
      (frameEvsAt numSim numRen numCopied (shiftParams^[f] (paramsOf initSys))
        (flag f)) from rfl, hostWaitsOf_frame]

/-- C5 counterexample: the claim says that whenever the compute and render
adapter selections coincide the system switches to async-aliased mode
(`Compute`'s position buffers pointer-identical to `Render`'s local
buffers, cross-adapter copy skipped).  With a single adapter
(`computeAdapterIndex = renderAdapterIndex = 0`, what `AssignAdapters`
yields on a one-adapter system) the constructed `Compute`'s position
buffer 0 is its own shared-heap placed resource, not `Render`'s local
buffer, and the first frame still executes a cross-adapter copy (from
shared slot 1). -/
theorem same_adapter_does_not_enter_async_mode :
    (particlesConstructComputeBuffers 0 0).positionBuffers.1 =
      Res.computeSharedPlaced 0
    ∧ (particlesConstructComputeBuffers 0 0).positionBuffers.1 ≠
        Res.renderLocal 0
    ∧ copySrcIndices (particlesTick 1024 1024 1024 0 0 initSys).1 = [1] := by
  refine ⟨rfl, by decide, ?_⟩
  decide

/-- C5 amended: the async-aliased machinery (`SetAsync`,
`ResetFromAsyncHelper`) exists but is never engaged: for every adapter
assignment — equal or not — the constructed `Compute`'s position buffers
are its own shared-heap placed resources, `ResetFromAsyncHelper` on such
an instance performs no copy-back and leaves the state unchanged, and
every steady-state tick performs the cross-adapter copy (exactly one
`CopyBufferRegion`, reading shared slot `1 - sharedBufferIndex`). -/
theorem async_alias_mode_never_entered
    (ci ri numSim numRen numCopied fi comp : ℕ) (sys : SysState) :
    particlesConstructComputeBuffers ci ri = computeInitializeBuffers
    ∧ resetFromAsyncHelper (particlesConstructComputeBuffers ci ri) =
        (false, computeInitializeBuffers)
    ∧ copySrcIndices (particlesTick numSim numRen numCopied fi comp sys).1 =
        [1 - sys.render.sharedBufferIndex] := by
  refine ⟨rfl, rfl, ?_⟩
  rw [particlesTick_trace, copySrcIndices_frame]
  rfl

/-- C8: `SetUseIntelCommandQueueExtension(b)` never fails; afterwards the
reported state equals the effective state `b && supported` (not the
requested one), the device's support bit is unchanged, and the command
queue is recreated exactly when the effective state differs from the
current one. -/
theorem set_extension_reports_effective_state (b : Bool)
    (st : AdapterExtState) :
    getUsingIntelCommandQueueExtension
        (setUseIntelCommandQueueExtension b st).2 = (b && st.helperEnabled)
    ∧ (setUseIntelCommandQueueExtension b st).2.helperEnabled =
        st.helperEnabled
    ∧ ((setUseIntelCommandQueueExtension b st).1 = true ↔
        st.usingIntelCommandQueueExtension ≠ (b && st.helperEnabled)) := by
  obtain ⟨u, e⟩ := st
  cases b <;> cases u <;> cases e <;>
    simp [setUseIntelCommandQueueExtension, getUsingIntelCommandQueueExtension]

theorem telemetrySeries_replicate (a s : ℚ) (n : ℕ) :
    telemetrySeries frameTimeUpdate a (List.replicate n s) =
      s + (19 / 20) ^ n * (a - s) := by
  induction n generalizing a with
  | zero => simp [telemetrySeries]
  | succ n ih =>
    rw [List.replicate_succ]
    have hstep : telemetrySeries frameTimeUpdate a
        (s :: List.replicate n s) =
        telemetrySeries frameTimeUpdate (frameTimeUpdate a s)
          (List.replicate n s) := rfl
    rw [hstep, ih]
    rw [frameTimeUpdate, AVERAGE_OVER]
    push_cast
    ring

/-- C9 counterexample: telemetry is not a fixed-window trailing mean.
After the sample sequence `420, 0, 0, …, 0` (twenty zero samples), the
mean of the last 20 samples is `0`, but the exposed value — both for the
host frame time and for a GPU timer, which use the same recurrence — is
`21 * (19/20)^20 ≠ 0`: the sample from 21 frames ago still contributes. -/
theorem telemetry_differs_from_window_mean :
    telemetrySeries frameTimeUpdate 0 ((420 : ℚ) :: List.replicate 20 0) ≠
      specTrailingWindowMean AVERAGE_OVER ((420 : ℚ) :: List.replicate 20 0)
    ∧ telemetrySeries (gpuTimerUpdate AVERAGE_OVER) 0
        ((420 : ℚ) :: List.replicate 20 0) ≠
      specTrailingWindowMean AVERAGE_OVER ((420 : ℚ) :: List.replicate 20 0) := by
  have hg : ∀ prev delta : ℚ,
      gpuTimerUpdate AVERAGE_OVER prev delta = frameTimeUpdate prev delta := by
    intro prev delta; rfl
  have hlhs : telemetrySeries frameTimeUpdate 0
      ((420 : ℚ) :: List.replicate 20 0) = 21 * (19 / 20) ^ 20 := by
    have h420 : frameTimeUpdate 0 420 = 21 := by
      rw [frameTimeUpdate, AVERAGE_OVER]; norm_num
    rw [telemetrySeries, List.foldl_cons, h420,
      show List.foldl frameTimeUpdate 21 (List.replicate 20 0) =
        telemetrySeries frameTimeUpdate 21 (List.replicate 20 0) from rfl,
      telemetrySeries_replicate]
    ring
  have hrhs : specTrailingWindowMean AVERAGE_OVER
      ((420 : ℚ) :: List.replicate 20 0) = 0 := by
    rw [specTrailingWindowMean, AVERAGE_OVER]
    norm_num
  have hgpu : telemetrySeries (gpuTimerUpdate AVERAGE_OVER) 0
      ((420 : ℚ) :: List.replicate 20 0) =
      telemetrySeries frameTimeUpdate 0 ((420 : ℚ) :: List.replicate 20 0) := by
    rw [show gpuTimerUpdate AVERAGE_OVER = frameTimeUpdate from rfl]
  constructor
  · rw [hlhs, hrhs]; positivity
  · rw [hgpu, hlhs, hrhs]; positivity

/-- C9 amended: every exposed telemetry value follows an exponentially
weighted moving average with coefficient `1/20`
(`new = old + (sample - old)/20`, equivalently `(19·old + sample)/20`),
refreshed once per frame — each tick records exactly one
`ResolveAllTimers` on the render-device and compute-device command lists;
under a constant input the value converges geometrically with ratio
`19/20` instead of equalling the input after 20 samples. -/
theorem telemetry_is_ewma :
    (∀ prev sample : ℚ,
      frameTimeUpdate prev sample = prev + (sample - prev) / 20)
    ∧ (∀ prev delta : ℚ,
      gpuTimerUpdate AVERAGE_OVER prev delta = prev + (delta - prev) / 20)
    ∧ (∀ (a s : ℚ) (n : ℕ),
      telemetrySeries frameTimeUpdate a (List.replicate n s) =
        s + (19 / 20) ^ n * (a - s))
    ∧ (∀ (numSim numRen numCopied fi comp : ℕ) (sys : SysState),
      ((particlesTick numSim numRen numCopied fi comp sys).1.count
          (Ev.timerResolve .renderQueue) = 1
      ∧ (particlesTick numSim numRen numCopied fi comp sys).1.count
          (Ev.timerResolve .computeQueue) = 1)) := by
  refine ⟨?_, ?_, telemetrySeries_replicate, ?_⟩
  · intro prev sample
    rw [frameTimeUpdate, AVERAGE_OVER]
    push_cast
    ring
  · intro prev delta
    rw [gpuTimerUpdate, AVERAGE_OVER]
    push_cast
    ring
  · intro numSim numRen numCopied fi comp sys
    rw [particlesTick_trace]
    constructor <;> cases tickFlag fi comp sys <;> rfl

/-- C7: on first construction both ping-pong position slots receive
identical contents and both velocity slots receive identical contents;
the seeded particles form two groups of `n / 2`, the first centered at
`(+0.75 · spread, 0, 0)` and the second at `(-0.75 · spread, 0, 0)`
(each particle at center plus a spread-scaled normalized random offset);
and every seeded particle's velocity is the cross product of its
normalized radial direction with a reference direction
(`normalizeEst((1,1,1) - direction)`), scaled by the configured initial
speed. -/
theorem initial_seed_structure {V : Type} (ops : VecOps V)
    (rand : ℕ → ℕ → V) (fuel : ℕ → ℕ) (n : ℕ) :
    (∃ p v, initializeParticles ops rand fuel n =
      [ .toPositionSlot 0 p, .toPositionSlot 1 p,
        .toVelocitySlot 0 v, .toVelocitySlot 1 v ])
    ∧ (∀ i, i < n / 2 →
        ∃ off, seededPositions ops rand fuel n i =
          some (ops.vadd (ops.xAxis (PARTICLE_SPREAD * (3 / 4)))
            (ops.scale PARTICLE_SPREAD (ops.normalize off))))
    ∧ (∀ i, n / 2 ≤ i → i < n / 2 + n / 2 →
        ∃ off, seededPositions ops rand fuel n i =
          some (ops.vadd (ops.xAxis (-(PARTICLE_SPREAD * (3 / 4))))
            (ops.scale PARTICLE_SPREAD (ops.normalize off))))
    ∧ (∀ i, i < n / 2 + n / 2 →
        ∃ p, seededPositions ops rand fuel n i = some p
          ∧ seededVelocities ops rand fuel n i =
              some (ops.scale INITIAL_PARTICLE_SPEED
                (ops.cross (ops.normalizeEst p)
                  (ops.normalizeEst (ops.vsub ops.ones
                    (ops.normalizeEst p)))))) := by
  refine ⟨⟨_, _, rfl⟩, ?_, ?_, ?_⟩
  · intro i hi
    refine ⟨loadDelta ops (rand i) (fuel i), ?_⟩
    simp [seededPositions, loadParticles, loadParticlePos, hi]
  · intro i hlo hhi
    have hi : ¬ i < n / 2 := by omega
    have hi2 : i - n / 2 < n / 2 := by omega
    refine ⟨loadDelta ops (rand (n / 2 + (i - n / 2)))
      (fuel (n / 2 + (i - n / 2))), ?_⟩
    simp [seededPositions, loadParticles, loadParticlePos, hi, hi2]
  · intro i hi
    by_cases hlo : i < n / 2
    · refine ⟨loadParticlePos ops (rand i) (fuel i)
        (ops.xAxis (PARTICLE_SPREAD * (3 / 4))) PARTICLE_SPREAD, ?_, ?_⟩
      · simp [seededPositions, loadParticles, hlo]
      · simp [seededVelocities, loadParticles, loadParticleVel, hlo]
    · have hi2 : i - n / 2 < n / 2 := by omega
      refine ⟨loadParticlePos ops (rand (n / 2 + (i - n / 2)))
        (fuel (n / 2 + (i - n / 2)))
        (ops.xAxis (-(PARTICLE_SPREAD * (3 / 4)))) PARTICLE_SPREAD, ?_, ?_⟩
      · simp [seededPositions, loadParticles, hlo, hi2]
      · simp [seededVelocities, loadParticles, loadParticleVel, hlo, hi2]

/-- C7 witness: at `n = 4`, index 1 lies in the first cluster and index 3
in the second, and the velocity of particle 3 has the stated form (over
the concrete `ℚ` instantiation of the vector operations). -/
theorem initial_seed_structure_witness :
    ((1 : ℕ) < 4 / 2 ∧ (4 / 2 : ℕ) ≤ 3 ∧ (3 : ℕ) < 4 / 2 + 4 / 2)
    ∧ (∃ off, seededPositions ratVecOps (fun _ _ => 0) (fun _ => 0) 4 1 =
        some (ratVecOps.vadd (ratVecOps.xAxis (PARTICLE_SPREAD * (3 / 4)))
          (ratVecOps.scale PARTICLE_SPREAD (ratVecOps.normalize off))))
    ∧ (∃ p, seededPositions ratVecOps (fun _ _ => 0) (fun _ => 0) 4 3 = some p
        ∧ seededVelocities ratVecOps (fun _ _ => 0) (fun _ => 0) 4 3 =
            some (ratVecOps.scale INITIAL_PARTICLE_SPEED
              (ratVecOps.cross (ratVecOps.normalizeEst p)
                (ratVecOps.normalizeEst (ratVecOps.vsub ratVecOps.ones
                  (ratVecOps.normalizeEst p)))))) :=
  ⟨⟨by norm_num, by norm_num, by norm_num⟩,
   (initial_seed_structure ratVecOps (fun _ _ => 0) (fun _ => 0) 4).2.1
     1 (by norm_num),
   (initial_seed_structure ratVecOps (fun _ _ => 0) (fun _ => 0) 4).2.2.2
     3 (by norm_num)⟩

/-- C10: the seeding writes positions and velocities for exactly the
indices `< 2 * (n / 2)` (two groups of `n / 2`); for odd `n` the final
element of each buffer is never written; and `n = 0` is rejected only by
the debug-build assertion (`n != 0`), the seeding itself running
unconditionally. -/
theorem seeding_write_domain {V : Type} (ops : VecOps V)
    (rand : ℕ → ℕ → V) (fuel : ℕ → ℕ) (n : ℕ) :
    (∀ i, (seededPositions ops rand fuel n i).isSome ↔ i < 2 * (n / 2))
    ∧ (∀ i, (seededVelocities ops rand fuel n i).isSome ↔ i < 2 * (n / 2))
    ∧ (n % 2 = 1 →
        seededPositions ops rand fuel n (n - 1) = none
        ∧ seededVelocities ops rand fuel n (n - 1) = none)
    ∧ (initializeParticlesAssert n = false ↔ n = 0) := by
  have hpos : ∀ i, (seededPositions ops rand fuel n i).isSome ↔
      i < 2 * (n / 2) := by
    intro i
    by_cases hlo : i < n / 2
    · simp [seededPositions, loadParticles, hlo]
      omega
    · by_cases hhi : i - n / 2 < n / 2
      · simp [seededPositions, loadParticles, hlo, hhi]
        omega
      · simp [seededPositions, loadParticles, hlo, hhi]
        omega
  have hvel : ∀ i, (seededVelocities ops rand fuel n i).isSome ↔
      i < 2 * (n / 2) := by
    intro i
    by_cases hlo : i < n / 2
    · simp [seededVelocities, loadParticles, hlo]
      omega
    · by_cases hhi : i - n / 2 < n / 2
      · simp [seededVelocities, loadParticles, hlo, hhi]
        omega
      · simp [seededVelocities, loadParticles, hlo, hhi]
        omega
  refine ⟨hpos, hvel, ?_, ?_⟩
  · intro hodd
    have h1 : ¬ (n - 1 < 2 * (n / 2)) := by omega
    constructor
    · have := hpos (n - 1)
      cases hv : seededPositions ops rand fuel n (n - 1) with
      | none => rfl
      | some v => rw [hv] at this; simp at this; omega
    · have := hvel (n - 1)
      cases hv : seededVelocities ops rand fuel n (n - 1) with
      | none => rfl
      | some v => rw [hv] at this; simp at this; omega
  · rw [initializeParticlesAssert]
    simp

/-- C10 witness: at `n = 5` the seeding writes indices `0..3` and leaves
index 4 (the final element) unwritten; the debug assertion accepts 5. -/
theorem seeding_write_domain_witness :
    ((5 : ℕ) % 2 = 1)
    ∧ (seededPositions ratVecOps (fun _ _ => 0) (fun _ => 0) 5 (5 - 1) = none
        ∧ seededVelocities ratVecOps (fun _ _ => 0) (fun _ => 0) 5 (5 - 1) =
          none) :=
  ⟨by norm_num,
   (seeding_write_domain ratVecOps (fun _ _ => 0) (fun _ => 0) 5).2.2.1
     (by norm_num)⟩

end MAP
